import Mathlib

/-!
  Formal model of the fx-intraday-breakout backtest core.

  The definitions below are a shallow embedding of the Python sources:

  * `src/utils/timeutils.py` — timestamps, timezone conversion, session clock;
  * `src/strategy/intraday_breakout.py` — the intraday breakout signal
    generator and its threaded `IntradayState`;
  * `src/execution/models.py` — `Position`, `Trade`;
  * `src/execution/backtest_exec.py` — the `BacktestEngine.run` loop,
    decomposed into its exit-check half and its entry half, iterated over the
    bar list and folded across symbols.

  Modelling conventions:
  * prices and money are `ℚ` (the source uses IEEE floats; the properties at
    stake are the exact arithmetic identities of the formulas);
  * a pandas timestamp is a wall-clock reading in minutes (`ℤ`) together with
    an optional fixed UTC offset in minutes (`none` = naive). Timezones are
    fixed offsets; `tz_convert` on a naive timestamp is modelled as treating
    it as UTC (the data loader only ever supplies timezone-aware indices);
  * time-of-day and calendar date come from Euclidean `%`/`/` by 1440.
-/

namespace FxBreakout

/-- A pandas timestamp: wall-clock minutes plus an optional UTC offset
(minutes). `tz = none` models a naive timestamp. -/
structure PyTimestamp where
  wall : ℤ
  tz : Option ℤ
deriving DecidableEq

/-- The UTC instant a timestamp denotes (a naive one is read as UTC). -/
def instantOf (ts : PyTimestamp) : ℤ := ts.wall - ts.tz.getD 0

/-- Model of `Timestamp.tz_convert`: re-express the same instant at a new
fixed offset. -/
def tz_convert (ts : PyTimestamp) (off : ℤ) : PyTimestamp :=
  ⟨instantOf ts + off, some off⟩

/-- Model of `timeutils.to_timezone`: a naive timestamp is localized to UTC
first, then converted; an aware one is converted directly. -/
def to_timezone (ts : PyTimestamp) (off : ℤ) : PyTimestamp :=
  match ts.tz with
  | none => tz_convert ⟨ts.wall, some 0⟩ off
  | some _ => tz_convert ts off

/-- Minutes past local midnight, the model of `Timestamp.timetz()` (`%` on
`ℤ` is Euclidean, so this is always in `[0, 1440)`). -/
def timeOfDay (ts : PyTimestamp) : ℤ := ts.wall % 1440

/-- Local calendar date (day number), the model of `Timestamp.date()` (`/`
on `ℤ` is Euclidean division, i.e. floor for the positive divisor 1440). -/
def localDateOf (ts : PyTimestamp) : ℤ := ts.wall / 1440

/-- Model of `timeutils.is_in_session`: convert to the session timezone,
take the time-of-day, and test `session_start <= t < session_end`. -/
def is_in_session (ts : PyTimestamp) (session_start session_end : ℤ)
    (off : ℤ) : Prop :=
  session_start ≤ timeOfDay (to_timezone ts off) ∧
    timeOfDay (to_timezone ts off) < session_end

instance (ts : PyTimestamp) (session_start session_end off : ℤ) :
    Decidable (is_in_session ts session_start session_end off) :=
  inferInstanceAs (Decidable (_ ∧ _))

/-- One OHLC bar (`opn` is the `open` column; `open` is a Lean keyword). -/
structure Bar where
  opn : ℚ
  high : ℚ
  low : ℚ
  close : ℚ
deriving DecidableEq

/-- Trade direction, the `'long'` / `'short'` strings of the source. -/
inductive Side where
  | long
  | short
deriving DecidableEq

/-- Exit reason, the `'sl'` / `'tp'` strings of the source. -/
inductive ExitReason where
  | sl
  | tp
deriving DecidableEq

/-- The flattened run configuration: the fields of `Config` (and its nested
`SessionConfig` / `CostsConfig` / `DataConfig`) that the strategy and the
backtest engine read. Session times are minutes past midnight, the timezone
is a fixed offset in minutes. -/
structure Config where
  session_start : ℤ
  session_end : ℤ
  timezone : ℤ
  sl_pct : ℚ
  tp_pct : ℚ
  equity_pct_per_trade : ℚ
  spread : ℚ
  slippage : ℚ
  commission_per_lot : ℚ
deriving DecidableEq

/-- `strategy.intraday_breakout.IntradayState`. -/
structure IntradayState where
  high : Option ℚ
  low : Option ℚ
  current_date : Option ℤ
deriving DecidableEq

/-- The bar's local calendar date as computed at the top of
`evaluate_bar` (`ts.tz_convert(tz).date()`). -/
def localDate (cfg : Config) (ts : PyTimestamp) : ℤ :=
  localDateOf (tz_convert ts cfg.timezone)

/-- The day-change reset at the top of `evaluate_bar`: clear the levels and
stamp the new date whenever the bar's local date differs from
`current_date`. -/
def dayReset (cfg : Config) (ts : PyTimestamp) (s : IntradayState) :
    IntradayState :=
  if s.current_date ≠ some (localDate cfg ts) then
    ⟨none, none, some (localDate cfg ts)⟩
  else s

/-- Long breakout trigger against the pre-update level:
`state.high is not None and bar.high > state.high`. -/
def longTrigger (s : IntradayState) (bar : Bar) : Prop :=
  match s.high with
  | some h0 => h0 < bar.high
  | none => False

instance (s : IntradayState) (bar : Bar) : Decidable (longTrigger s bar) :=
  match hs : s.high with
  | some h0 => decidable_of_iff (h0 < bar.high) (by simp [longTrigger, hs])
  | none => isFalse (by simp [longTrigger, hs])

/-- Short breakout trigger against the pre-update level:
`state.low is not None and bar.low < state.low`. -/
def shortTrigger (s : IntradayState) (bar : Bar) : Prop :=
  match s.low with
  | some l0 => bar.low < l0
  | none => False

instance (s : IntradayState) (bar : Bar) : Decidable (shortTrigger s bar) :=
  match hs : s.low with
  | some l0 => decidable_of_iff (bar.low < l0) (by simp [shortTrigger, hs])
  | none => isFalse (by simp [shortTrigger, hs])

/-- The level bookkeeping of `evaluate_bar`: widen `high`/`low` to include
the current bar. -/
def updateLevels (s : IntradayState) (bar : Bar) : IntradayState :=
  { s with
    high := some (match s.high with
      | none => bar.high
      | some h0 => if h0 < bar.high then bar.high else h0),
    low := some (match s.low with
      | none => bar.low
      | some l0 => if bar.low < l0 then bar.low else l0) }

/-- `IntradayBreakoutStrategy.evaluate_bar`: day reset, trigger evaluation
against pre-update levels, ambiguity tie-break to `none`, level update, and
the session filter applied last. -/
def evaluate_bar (cfg : Config) (ts : PyTimestamp) (bar : Bar)
    (state : IntradayState) : Option Side × IntradayState :=
  let s1 := dayReset cfg ts state
  let signal : Option Side :=
    if longTrigger s1 bar ∧ ¬shortTrigger s1 bar then some Side.long
    else if shortTrigger s1 bar ∧ ¬longTrigger s1 bar then some Side.short
    else none
  let s2 := updateLevels s1 bar
  let signal2 :=
    if is_in_session ts cfg.session_start cfg.session_end cfg.timezone then
      signal
    else none
  (signal2, s2)

/-- One signal-evaluation step of the threaded state (the engine threads a
single `IntradayState` through successive `evaluate_bar` calls). -/
def stratStep (cfg : Config) (s : IntradayState) (tb : PyTimestamp × Bar) :
    IntradayState :=
  (evaluate_bar cfg tb.1 tb.2 s).2

/-- Thread one `IntradayState` through a sequence of bar evaluations. -/
def stratRun (cfg : Config) (s : IntradayState)
    (l : List (PyTimestamp × Bar)) : IntradayState :=
  l.foldl (stratStep cfg) s

/-- `execution.models.Position`. -/
structure Position where
  symbol : String
  side : Side
  volume : ℚ
  entry_price : ℚ
  sl_price : ℚ
  tp_price : ℚ
  entry_time : PyTimestamp
deriving DecidableEq

/-- `execution.models.Trade`. -/
structure Trade where
  symbol : String
  side : Side
  volume : ℚ
  entry_price : ℚ
  exit_price : ℚ
  entry_time : PyTimestamp
  exit_time : PyTimestamp
  pnl : ℚ
  fees : ℚ
  reason : ExitReason
deriving DecidableEq

/-- `backtest_exec.EquityPoint`. -/
structure EquityPoint where
  timestamp : PyTimestamp
  equity : ℚ
deriving DecidableEq

/-- The mutable loop state of `BacktestEngine.run` while one symbol is being
processed: running equity, accumulated trades and equity curve, the open
position (if any) and the strategy state. The extra `sizing_zero_div` flag
is an observer with no counterpart in the source: it records that the
position-sizing expression `equity * equity_pct_per_trade / open_price` was
executed with `open_price = 0`, the spot where the Python engine would raise
`ZeroDivisionError`. -/
structure RunState where
  equity : ℚ
  trades : List Trade
  equity_curve : List EquityPoint
  position : Option Position
  state : IntradayState
  sizing_zero_div : Bool
deriving DecidableEq

/-- `BacktestEngine._compute_fees`. -/
def compute_fees (cfg : Config) (volume : ℚ) : ℚ :=
  cfg.commission_per_lot * volume

/-- The fill model on the entry side (lines 129-136 of the engine): a long
entry buys at `price + half_spread + slippage`, a short entry sells at
`price - half_spread - slippage`. -/
def entryFill (cfg : Config) (side : Side) (price : ℚ) : ℚ :=
  match side with
  | Side.long => price + cfg.spread / 2 + cfg.slippage
  | Side.short => price - cfg.spread / 2 - cfg.slippage

/-- The fill model on the exit side (lines 95-101 of the engine): a long
exit sells at `base - half_spread - slippage`, a short exit buys at
`base + half_spread + slippage`. -/
def exitFill (cfg : Config) (side : Side) (base : ℚ) : ℚ :=
  match side with
  | Side.long => base - cfg.spread / 2 - cfg.slippage
  | Side.short => base + cfg.spread / 2 + cfg.slippage

/-- Realized P&L: `(exit - entry) * volume` for a long,
`(entry - exit) * volume` for a short. -/
def pnlOf (side : Side) (entry_price exit_price volume : ℚ) : ℚ :=
  match side with
  | Side.long => (exit_price - entry_price) * volume
  | Side.short => (entry_price - exit_price) * volume

/-- Stop price from the percentage offset relative to the entry fill. -/
def slPriceOf (cfg : Config) (side : Side) (entry_price : ℚ) : ℚ :=
  match side with
  | Side.long => entry_price * (1 - cfg.sl_pct)
  | Side.short => entry_price * (1 + cfg.sl_pct)

/-- Target price from the percentage offset relative to the entry fill. -/
def tpPriceOf (cfg : Config) (side : Side) (entry_price : ℚ) : ℚ :=
  match side with
  | Side.long => entry_price * (1 + cfg.tp_pct)
  | Side.short => entry_price * (1 - cfg.tp_pct)

/-- Position sizing: `equity * equity_pct_per_trade / open_price` (line 138
of the engine; there is no guard against `open_price = 0`, where the Python
expression raises `ZeroDivisionError`). -/
def volumeOf (cfg : Config) (equity open_price : ℚ) : ℚ :=
  equity * cfg.equity_pct_per_trade / open_price

/-- The exit-condition cascade of `BacktestEngine.run` (lines 74-90): for a
long position `low <= sl` is tested before `high >= tp`, for a short
position `high >= sl` before `low <= tp`; the result carries the exit reason
and the breached level used as the raw exit price. -/
def checkExit (pos : Position) (bar : Bar) : Option (ExitReason × ℚ) :=
  match pos.side with
  | Side.long =>
      if bar.low ≤ pos.sl_price then some (ExitReason.sl, pos.sl_price)
      else if pos.tp_price ≤ bar.high then some (ExitReason.tp, pos.tp_price)
      else none
  | Side.short =>
      if pos.sl_price ≤ bar.high then some (ExitReason.sl, pos.sl_price)
      else if bar.low ≤ pos.tp_price then some (ExitReason.tp, pos.tp_price)
      else none

/-- The exit half of one loop iteration of `BacktestEngine.run`: if a
position is open and the current bar breaches its stop or target, close it
at the breached level adjusted for half-spread and slippage, realize P&L and
fees into equity, append the `Trade` and one `EquityPoint`, and clear the
position. -/
def exitStep (cfg : Config) (ts : PyTimestamp) (bar : Bar) (rs : RunState) :
    RunState :=
  match rs.position with
  | none => rs
  | some pos =>
    match checkExit pos bar with
    | none => rs
    | some (reason, exit_base_price) =>
      let exit_price := exitFill cfg pos.side exit_base_price
      let pnl := pnlOf pos.side pos.entry_price exit_price pos.volume
      let fees := compute_fees cfg pos.volume
      let newEquity := rs.equity + (pnl - fees)
      { rs with
        equity := newEquity,
        trades := rs.trades ++
          [⟨pos.symbol, pos.side, pos.volume, pos.entry_price, exit_price,
            pos.entry_time, ts, pnl, fees, reason⟩],
        equity_curve := rs.equity_curve ++ [⟨ts, newEquity⟩],
        position := none }

/-- The entry half of one loop iteration of `BacktestEngine.run`: with no
open position, evaluate the strategy on the current bar; on a signal, price
the entry off the **next** bar's open adjusted for half-spread and slippage,
derive stop/target from the percentage offsets, size the position from
running equity, and open it with `entry_time` = the next bar's timestamp. -/
def entryStep (cfg : Config) (symbol : String) (ts : PyTimestamp) (bar : Bar)
    (next_ts : PyTimestamp) (next_bar : Bar) (rs : RunState) : RunState :=
  match rs.position with
  | some _ => rs
  | none =>
    let res := evaluate_bar cfg ts bar rs.state
    let rs1 := { rs with state := res.2 }
    match res.1 with
    | none => rs1
    | some side =>
      let open_price := next_bar.opn
      let entry_price := entryFill cfg side open_price
      let sl_price := slPriceOf cfg side entry_price
      let tp_price := tpPriceOf cfg side entry_price
      let volume := volumeOf cfg rs1.equity open_price
      { rs1 with
        position := some ⟨symbol, side, volume, entry_price, sl_price,
          tp_price, next_ts⟩,
        sizing_zero_div :=
          if open_price = 0 then true else rs1.sizing_zero_div }

/-- One full iteration of the per-symbol loop of `BacktestEngine.run`:
exit-check of the current bar first, then the entry evaluation (which also
runs right after a close on the same bar, since the position was cleared). -/
def stepBar (cfg : Config) (symbol : String) (ts : PyTimestamp) (bar : Bar)
    (next_ts : PyTimestamp) (next_bar : Bar) (rs : RunState) : RunState :=
  entryStep cfg symbol ts bar next_ts next_bar (exitStep cfg ts bar rs)

/-- The bar loop `for idx in range(len(df) - 1)` of `BacktestEngine.run`,
written with the current bar and the remaining bars as the iteration runs
each bar against its successor; the final bar is only ever the `next` of the
last iteration, never the current bar. -/
def runSymbolAux (cfg : Config) (symbol : String) :
    PyTimestamp × Bar → List (PyTimestamp × Bar) → RunState → RunState
  | _, [], rs => rs
  | cur, nxt :: rest, rs =>
      runSymbolAux cfg symbol nxt rest
        (stepBar cfg symbol cur.1 cur.2 nxt.1 nxt.2 rs)

/-- The cross-symbol accumulator of `BacktestEngine.run`: running equity,
trades and the equity curve (plus the `sizing_zero_div` observer). -/
structure EngineAcc where
  equity : ℚ
  trades : List Trade
  equity_curve : List EquityPoint
  sizing_zero_div : Bool
deriving DecidableEq

/-- Processing of one symbol inside `BacktestEngine.run`: a series with
fewer than two bars is skipped (`if len(df) < 2: continue`), otherwise the
bar loop runs with a fresh `IntradayState` and no position, and the
accumulator fields are carried out (the open position, if any remains, is
discarded exactly as in the source). -/
def runSymbol (cfg : Config) (symbol : String)
    (df : List (PyTimestamp × Bar)) (acc : EngineAcc) : EngineAcc :=
  if df.length < 2 then acc
  else
    match df with
    | [] => acc
    | cur :: rest =>
      let rs := runSymbolAux cfg symbol cur rest
        ⟨acc.equity, acc.trades, acc.equity_curve, none,
          ⟨none, none, none⟩, acc.sizing_zero_div⟩
      ⟨rs.equity, rs.trades, rs.equity_curve, rs.sizing_zero_div⟩

/-- The symbol loop of `BacktestEngine.run` from an arbitrary accumulator:
process each symbol's bar series in order, carrying equity, trades and the
equity curve across symbols. -/
def runAllSymbols (cfg : Config)
    (data : List (String × List (PyTimestamp × Bar)))
    (acc : EngineAcc) : EngineAcc :=
  data.foldl (fun a sd => runSymbol cfg sd.1 sd.2 a) acc

/-- `BacktestEngine.run`: fold the per-symbol processing over the configured
symbols and their loaded bar series, starting from the initial equity. -/
def engineRun (cfg : Config)
    (data : List (String × List (PyTimestamp × Bar)))
    (initial_equity : ℚ) : EngineAcc :=
  runAllSymbols cfg data ⟨initial_equity, [], [], false⟩

/-- Net equity effect of one trade: `pnl - fees`. -/
def tradeNet (t : Trade) : ℚ := t.pnl - t.fees

/-- Sum of the net equity effects of a list of trades. -/
def netSum (l : List Trade) : ℚ := (l.map tradeNet).sum

/-- The equity values the curve should carry: after the `(i+1)`-st trade,
`initial_equity` plus the net sum of the first `i+1` trades. -/
def postTradeEquities (e0 : ℚ) (l : List Trade) : List ℚ :=
  (List.range l.length).map (fun i => e0 + netSum (l.take (i + 1)))

/-- The equity-accounting invariant of the engine loop: the running equity
is the initial equity plus the net sum of the closed trades, and the equity
curve carries exactly the per-trade partial sums. -/
def AccInv (e0 eq : ℚ) (tr : List Trade) (cv : List EquityPoint) : Prop :=
  eq = e0 + netSum tr ∧ cv.map EquityPoint.equity = postTradeEquities e0 tr

/-- A configuration used by the concrete scenarios: session window the whole
day, UTC offset zero, `sl_pct = tp_pct = 1/10`, `equity_pct_per_trade =
1/50`, zero spread, slippage and commission. -/
def concreteCfg : Config := ⟨0, 1440, 0, 1/10, 1/10, 1/50, 0, 0, 0⟩

/-! Evaluation lemmas: one rewrite per branch of each definition. -/

theorem dayReset_reset (cfg : Config) (ts : PyTimestamp) (s : IntradayState)
    (h : s.current_date ≠ some (localDate cfg ts)) :
    dayReset cfg ts s = ⟨none, none, some (localDate cfg ts)⟩ := by
  rw [dayReset, if_pos h]

theorem dayReset_keep (cfg : Config) (ts : PyTimestamp) (s : IntradayState)
    (h : s.current_date = some (localDate cfg ts)) :
    dayReset cfg ts s = s := by
  rw [dayReset, if_neg (not_not_intro h)]

theorem longTrigger_some {s : IntradayState} {bar : Bar} {h0 : ℚ}
    (h : s.high = some h0) : longTrigger s bar ↔ h0 < bar.high := by
  unfold longTrigger
  rw [h]

theorem longTrigger_none {s : IntradayState} {bar : Bar}
    (h : s.high = none) : ¬longTrigger s bar := by
  unfold longTrigger
  rw [h]
  exact not_false

theorem shortTrigger_some {s : IntradayState} {bar : Bar} {l0 : ℚ}
    (h : s.low = some l0) : shortTrigger s bar ↔ bar.low < l0 := by
  unfold shortTrigger
  rw [h]

theorem shortTrigger_none {s : IntradayState} {bar : Bar}
    (h : s.low = none) : ¬shortTrigger s bar := by
  unfold shortTrigger
  rw [h]
  exact not_false

theorem updateLevels_eq (s : IntradayState) (bar : Bar) :
    updateLevels s bar =
      ⟨some (match s.high with
        | none => bar.high
        | some h0 => if h0 < bar.high then bar.high else h0),
       some (match s.low with
        | none => bar.low
        | some l0 => if bar.low < l0 then bar.low else l0),
       s.current_date⟩ := rfl

theorem updateLevels_none_none {s : IntradayState} (bar : Bar)
    (h1 : s.high = none) (h2 : s.low = none) :
    updateLevels s bar = ⟨some bar.high, some bar.low, s.current_date⟩ := by
  rw [updateLevels_eq, h1, h2]

theorem updateLevels_some_some {s : IntradayState} (bar : Bar) {h0 l0 : ℚ}
    (h1 : s.high = some h0) (h2 : s.low = some l0) :
    updateLevels s bar =
      ⟨some (if h0 < bar.high then bar.high else h0),
       some (if bar.low < l0 then bar.low else l0), s.current_date⟩ := by
  rw [updateLevels_eq, h1, h2]

theorem evaluate_bar_eq (cfg : Config) (ts : PyTimestamp) (bar : Bar)
    (s : IntradayState) :
    evaluate_bar cfg ts bar s =
      (if is_in_session ts cfg.session_start cfg.session_end cfg.timezone then
        if longTrigger (dayReset cfg ts s) bar ∧
            ¬shortTrigger (dayReset cfg ts s) bar then some Side.long
        else if shortTrigger (dayReset cfg ts s) bar ∧
            ¬longTrigger (dayReset cfg ts s) bar then some Side.short
        else none
       else none,
       updateLevels (dayReset cfg ts s) bar) := rfl

theorem evaluate_bar_snd (cfg : Config) (ts : PyTimestamp) (bar : Bar)
    (s : IntradayState) :
    (evaluate_bar cfg ts bar s).2 = updateLevels (dayReset cfg ts s) bar := rfl

theorem evaluate_bar_fst_out {cfg : Config} {ts : PyTimestamp} (bar : Bar)
    (s : IntradayState)
    (h : ¬is_in_session ts cfg.session_start cfg.session_end cfg.timezone) :
    (evaluate_bar cfg ts bar s).1 = none := by
  simp only [evaluate_bar_eq]
  exact if_neg h

theorem evaluate_bar_fst_long {cfg : Config} {ts : PyTimestamp} {bar : Bar}
    {s : IntradayState}
    (h1 : longTrigger (dayReset cfg ts s) bar)
    (h2 : ¬shortTrigger (dayReset cfg ts s) bar)
    (h3 : is_in_session ts cfg.session_start cfg.session_end cfg.timezone) :
    (evaluate_bar cfg ts bar s).1 = some Side.long := by
  simp only [evaluate_bar_eq]
  rw [if_pos h3, if_pos ⟨h1, h2⟩]

theorem evaluate_bar_fst_short {cfg : Config} {ts : PyTimestamp} {bar : Bar}
    {s : IntradayState}
    (h1 : shortTrigger (dayReset cfg ts s) bar)
    (h2 : ¬longTrigger (dayReset cfg ts s) bar)
    (h3 : is_in_session ts cfg.session_start cfg.session_end cfg.timezone) :
    (evaluate_bar cfg ts bar s).1 = some Side.short := by
  simp only [evaluate_bar_eq]
  rw [if_pos h3, if_neg (fun hc => h2 hc.1), if_pos ⟨h1, h2⟩]

theorem evaluate_bar_fst_none_noTrigger {cfg : Config} {ts : PyTimestamp}
    {bar : Bar} {s : IntradayState}
    (h1 : ¬longTrigger (dayReset cfg ts s) bar)
    (h2 : ¬shortTrigger (dayReset cfg ts s) bar) :
    (evaluate_bar cfg ts bar s).1 = none := by
  simp only [evaluate_bar_eq]
  by_cases h3 : is_in_session ts cfg.session_start cfg.session_end cfg.timezone
  · rw [if_pos h3, if_neg (fun hc => h1 hc.1), if_neg (fun hc => h2 hc.1)]
  · rw [if_neg h3]

theorem evaluate_bar_fst_none_both {cfg : Config} {ts : PyTimestamp}
    {bar : Bar} {s : IntradayState}
    (h1 : longTrigger (dayReset cfg ts s) bar)
    (h2 : shortTrigger (dayReset cfg ts s) bar) :
    (evaluate_bar cfg ts bar s).1 = none := by
  simp only [evaluate_bar_eq]
  by_cases h3 : is_in_session ts cfg.session_start cfg.session_end cfg.timezone
  · rw [if_pos h3, if_neg (fun hc => hc.2 h2), if_neg (fun hc => hc.2 h1)]
  · rw [if_neg h3]

theorem checkExit_eq_long {pos : Position} (bar : Bar)
    (h : pos.side = Side.long) :
    checkExit pos bar =
      (if bar.low ≤ pos.sl_price then some (ExitReason.sl, pos.sl_price)
       else if pos.tp_price ≤ bar.high then some (ExitReason.tp, pos.tp_price)
       else none) := by
  unfold checkExit
  rw [h]

theorem checkExit_eq_short {pos : Position} (bar : Bar)
    (h : pos.side = Side.short) :
    checkExit pos bar =
      (if pos.sl_price ≤ bar.high then some (ExitReason.sl, pos.sl_price)
       else if bar.low ≤ pos.tp_price then some (ExitReason.tp, pos.tp_price)
       else none) := by
  unfold checkExit
  rw [h]

theorem exitStep_no_position {rs : RunState} (cfg : Config)
    (ts : PyTimestamp) (bar : Bar) (h : rs.position = none) :
    exitStep cfg ts bar rs = rs := by
  unfold exitStep
  rw [h]

theorem exitStep_no_exit {rs : RunState} {pos : Position} (cfg : Config)
    (ts : PyTimestamp) {bar : Bar} (h : rs.position = some pos)
    (hx : checkExit pos bar = none) :
    exitStep cfg ts bar rs = rs := by
  simp only [exitStep, h, hx]

theorem exitStep_close {rs : RunState} {pos : Position} {cfg : Config}
    {ts : PyTimestamp} {bar : Bar} {r : ExitReason} {base : ℚ}
    (h : rs.position = some pos) (hx : checkExit pos bar = some (r, base)) :
    exitStep cfg ts bar rs =
      ⟨rs.equity + (pnlOf pos.side pos.entry_price (exitFill cfg pos.side base)
          pos.volume - compute_fees cfg pos.volume),
       rs.trades ++ [⟨pos.symbol, pos.side, pos.volume, pos.entry_price,
         exitFill cfg pos.side base, pos.entry_time, ts,
         pnlOf pos.side pos.entry_price (exitFill cfg pos.side base) pos.volume,
         compute_fees cfg pos.volume, r⟩],
       rs.equity_curve ++ [⟨ts, rs.equity +
         (pnlOf pos.side pos.entry_price (exitFill cfg pos.side base) pos.volume -
          compute_fees cfg pos.volume)⟩],
       none, rs.state, rs.sizing_zero_div⟩ := by
  simp only [exitStep, h, hx]

theorem entryStep_position_some {rs : RunState} {p : Position} (cfg : Config)
    (sym : String) (ts : PyTimestamp) (bar : Bar) (nts : PyTimestamp)
    (nbar : Bar) (h : rs.position = some p) :
    entryStep cfg sym ts bar nts nbar rs = rs := by
  unfold entryStep
  rw [h]

theorem entryStep_no_signal {rs : RunState} {cfg : Config} (sym : String)
    {ts : PyTimestamp} {bar : Bar} (nts : PyTimestamp) (nbar : Bar)
    (h : rs.position = none)
    (hsig : (evaluate_bar cfg ts bar rs.state).1 = none) :
    entryStep cfg sym ts bar nts nbar rs =
      { rs with state := (evaluate_bar cfg ts bar rs.state).2 } := by
  unfold entryStep
  rw [h]
  simp only [hsig]

theorem entryStep_signal {rs : RunState} {cfg : Config} (sym : String)
    {ts : PyTimestamp} {bar : Bar} (nts : PyTimestamp) (nbar : Bar)
    {side : Side} (h : rs.position = none)
    (hsig : (evaluate_bar cfg ts bar rs.state).1 = some side) :
    entryStep cfg sym ts bar nts nbar rs =
      ⟨rs.equity, rs.trades, rs.equity_curve,
       some ⟨sym, side, volumeOf cfg rs.equity nbar.opn,
         entryFill cfg side nbar.opn,
         slPriceOf cfg side (entryFill cfg side nbar.opn),
         tpPriceOf cfg side (entryFill cfg side nbar.opn), nts⟩,
       (evaluate_bar cfg ts bar rs.state).2,
       if nbar.opn = 0 then true else rs.sizing_zero_div⟩ := by
  unfold entryStep
  rw [h]
  simp only [hsig]

theorem stepBar_eq (cfg : Config) (sym : String) (ts : PyTimestamp)
    (bar : Bar) (nts : PyTimestamp) (nbar : Bar) (rs : RunState) :
    stepBar cfg sym ts bar nts nbar rs =
      entryStep cfg sym ts bar nts nbar (exitStep cfg ts bar rs) := rfl

theorem runSymbolAux_nil (cfg : Config) (sym : String)
    (cur : PyTimestamp × Bar) (rs : RunState) :
    runSymbolAux cfg sym cur [] rs = rs := rfl

theorem runSymbolAux_cons (cfg : Config) (sym : String)
    (cur nxt : PyTimestamp × Bar) (rest : List (PyTimestamp × Bar))
    (rs : RunState) :
    runSymbolAux cfg sym cur (nxt :: rest) rs =
      runSymbolAux cfg sym nxt rest
        (stepBar cfg sym cur.1 cur.2 nxt.1 nxt.2 rs) := rfl

theorem runSymbolAux_pair (cfg : Config) (sym : String) (t : PyTimestamp)
    (b : Bar) (t' : PyTimestamp) (b' : Bar)
    (rest : List (PyTimestamp × Bar)) (rs : RunState) :
    runSymbolAux cfg sym (t, b) ((t', b') :: rest) rs =
      runSymbolAux cfg sym (t', b') rest (stepBar cfg sym t b t' b' rs) := rfl

theorem runSymbol_skip {df : List (PyTimestamp × Bar)} (cfg : Config)
    (sym : String) (acc : EngineAcc) (h : df.length < 2) :
    runSymbol cfg sym df acc = acc := by
  unfold runSymbol
  rw [if_pos h]

theorem runSymbol_run (cfg : Config) (sym : String)
    (cur : PyTimestamp × Bar) (rest : List (PyTimestamp × Bar))
    (acc : EngineAcc) (h : ¬(cur :: rest : List (PyTimestamp × Bar)).length < 2) :
    runSymbol cfg sym (cur :: rest) acc =
      ⟨(runSymbolAux cfg sym cur rest
          ⟨acc.equity, acc.trades, acc.equity_curve, none,
            ⟨none, none, none⟩, acc.sizing_zero_div⟩).equity,
       (runSymbolAux cfg sym cur rest
          ⟨acc.equity, acc.trades, acc.equity_curve, none,
            ⟨none, none, none⟩, acc.sizing_zero_div⟩).trades,
       (runSymbolAux cfg sym cur rest
          ⟨acc.equity, acc.trades, acc.equity_curve, none,
            ⟨none, none, none⟩, acc.sizing_zero_div⟩).equity_curve,
       (runSymbolAux cfg sym cur rest
          ⟨acc.equity, acc.trades, acc.equity_curve, none,
            ⟨none, none, none⟩, acc.sizing_zero_div⟩).sizing_zero_div⟩ := by
  unfold runSymbol
  rw [if_neg h]

theorem runAllSymbols_nil (cfg : Config) (acc : EngineAcc) :
    runAllSymbols cfg [] acc = acc := rfl

theorem runAllSymbols_cons (cfg : Config)
    (sd : String × List (PyTimestamp × Bar))
    (rest : List (String × List (PyTimestamp × Bar))) (acc : EngineAcc) :
    runAllSymbols cfg (sd :: rest) acc =
      runAllSymbols cfg rest (runSymbol cfg sd.1 sd.2 acc) := rfl

theorem engineRun_eq (cfg : Config)
    (data : List (String × List (PyTimestamp × Bar))) (e0 : ℚ) :
    engineRun cfg data e0 = runAllSymbols cfg data ⟨e0, [], [], false⟩ := rfl

theorem runAllSymbols_pair (cfg : Config) (sym : String)
    (df : List (PyTimestamp × Bar))
    (rest : List (String × List (PyTimestamp × Bar))) (acc : EngineAcc) :
    runAllSymbols cfg ((sym, df) :: rest) acc =
      runAllSymbols cfg rest (runSymbol cfg sym df acc) := rfl

/-! Concrete scenario used by several claims: one symbol, one local calendar
day, `concreteCfg`, initial equity 1000. -/

theorem concrete_step1 :
    stepBar concreteCfg "EURUSD" ⟨0, some 0⟩ ⟨10, 10, 9, 10⟩ ⟨60, some 0⟩
      ⟨10, 11, 9, 10⟩ ⟨1000, [], [], none, ⟨none, none, none⟩, false⟩ =
    ⟨1000, [], [], none, ⟨some 10, some 9, some 0⟩, false⟩ := by
  rw [stepBar_eq, exitStep_no_position _ _ _ rfl]
  have hld : localDate concreteCfg ⟨0, some 0⟩ = 0 := by
    norm_num [localDate, localDateOf, tz_convert, instantOf, concreteCfg]
  have hd : dayReset concreteCfg ⟨0, some 0⟩ ⟨none, none, none⟩ =
      ⟨none, none, some 0⟩ := by
    rw [dayReset_reset _ _ _ (by simp), hld]
  have hsig : (evaluate_bar concreteCfg ⟨0, some 0⟩ ⟨10, 10, 9, 10⟩
      ⟨none, none, none⟩).1 = none :=
    evaluate_bar_fst_none_noTrigger
      (by rw [hd]; exact longTrigger_none rfl)
      (by rw [hd]; exact shortTrigger_none rfl)
  have hst : (evaluate_bar concreteCfg ⟨0, some 0⟩ ⟨10, 10, 9, 10⟩
      ⟨none, none, none⟩).2 = ⟨some 10, some 9, some 0⟩ := by
    rw [evaluate_bar_snd, hd, updateLevels_none_none _ rfl rfl]
  rw [entryStep_no_signal _ _ _ rfl hsig, hst]

theorem concrete_step2 :
    stepBar concreteCfg "EURUSD" ⟨60, some 0⟩ ⟨10, 11, 9, 10⟩ ⟨120, some 0⟩
      ⟨10, 10, 8, 9⟩ ⟨1000, [], [], none, ⟨some 10, some 9, some 0⟩, false⟩ =
    ⟨1000, [], [], some ⟨"EURUSD", Side.long, 2, 10, 9, 11, ⟨120, some 0⟩⟩,
      ⟨some 11, some 9, some 0⟩, false⟩ := by
  rw [stepBar_eq, exitStep_no_position _ _ _ rfl]
  have hld : localDate concreteCfg ⟨60, some 0⟩ = 0 := by
    norm_num [localDate, localDateOf, tz_convert, instantOf, concreteCfg]
  have hd : dayReset concreteCfg ⟨60, some 0⟩ ⟨some 10, some 9, some 0⟩ =
      ⟨some 10, some 9, some 0⟩ := dayReset_keep _ _ _ (by rw [hld])
  have hsig : (evaluate_bar concreteCfg ⟨60, some 0⟩ ⟨10, 11, 9, 10⟩
      ⟨some 10, some 9, some 0⟩).1 = some Side.long := by
    apply evaluate_bar_fst_long
    · rw [hd]; exact (longTrigger_some rfl).mpr (by norm_num)
    · rw [hd]
      exact fun hs => absurd ((shortTrigger_some rfl).mp hs) (by norm_num)
    · norm_num [is_in_session, timeOfDay, to_timezone, tz_convert, instantOf,
        concreteCfg]
  have hst : (evaluate_bar concreteCfg ⟨60, some 0⟩ ⟨10, 11, 9, 10⟩
      ⟨some 10, some 9, some 0⟩).2 = ⟨some 11, some 9, some 0⟩ := by
    rw [evaluate_bar_snd, hd, updateLevels_some_some _ rfl rfl]
    norm_num
  rw [entryStep_signal _ _ _ rfl hsig, hst]
  norm_num [volumeOf, entryFill, slPriceOf, tpPriceOf, concreteCfg]

theorem concrete_step3 :
    stepBar concreteCfg "EURUSD" ⟨120, some 0⟩ ⟨10, 10, 8, 9⟩ ⟨180, some 0⟩
      ⟨9, 9, 9, 9⟩
      ⟨1000, [], [], some ⟨"EURUSD", Side.long, 2, 10, 9, 11, ⟨120, some 0⟩⟩,
        ⟨some 11, some 9, some 0⟩, false⟩ =
    ⟨998,
     [⟨"EURUSD", Side.long, 2, 10, 9, ⟨120, some 0⟩, ⟨120, some 0⟩, -2, 0,
       ExitReason.sl⟩],
     [⟨⟨120, some 0⟩, 998⟩],
     some ⟨"EURUSD", Side.short, 499/225, 9, 99/10, 81/10, ⟨180, some 0⟩⟩,
     ⟨some 11, some 8, some 0⟩, false⟩ := by
  have hck : checkExit ⟨"EURUSD", Side.long, 2, 10, 9, 11, ⟨120, some 0⟩⟩
      ⟨10, 10, 8, 9⟩ = some (ExitReason.sl, 9) := by
    rw [checkExit_eq_long _ rfl, if_pos (by norm_num)]
  rw [stepBar_eq, exitStep_close rfl hck]
  have hld : localDate concreteCfg ⟨120, some 0⟩ = 0 := by
    norm_num [localDate, localDateOf, tz_convert, instantOf, concreteCfg]
  have hd : dayReset concreteCfg ⟨120, some 0⟩ ⟨some 11, some 9, some 0⟩ =
      ⟨some 11, some 9, some 0⟩ := dayReset_keep _ _ _ (by rw [hld])
  have hsig : (evaluate_bar concreteCfg ⟨120, some 0⟩ ⟨10, 10, 8, 9⟩
      ⟨some 11, some 9, some 0⟩).1 = some Side.short := by
    apply evaluate_bar_fst_short
    · rw [hd]; exact (shortTrigger_some rfl).mpr (by norm_num)
    · rw [hd]
      exact fun hs => absurd ((longTrigger_some rfl).mp hs) (by norm_num)
    · norm_num [is_in_session, timeOfDay, to_timezone, tz_convert, instantOf,
        concreteCfg]
  have hst : (evaluate_bar concreteCfg ⟨120, some 0⟩ ⟨10, 10, 8, 9⟩
      ⟨some 11, some 9, some 0⟩).2 = ⟨some 11, some 8, some 0⟩ := by
    rw [evaluate_bar_snd, hd, updateLevels_some_some _ rfl rfl]
    norm_num
  rw [entryStep_signal _ _ _ rfl hsig, hst]
  norm_num [volumeOf, entryFill, slPriceOf, tpPriceOf, pnlOf, exitFill,
    compute_fees, concreteCfg]

theorem concrete_run :
    engineRun concreteCfg
      [("EURUSD",
        [(⟨0, some 0⟩, ⟨10, 10, 9, 10⟩), (⟨60, some 0⟩, ⟨10, 11, 9, 10⟩),
         (⟨120, some 0⟩, ⟨10, 10, 8, 9⟩), (⟨180, some 0⟩, ⟨9, 9, 9, 9⟩)])]
      1000 =
    ⟨998,
     [⟨"EURUSD", Side.long, 2, 10, 9, ⟨120, some 0⟩, ⟨120, some 0⟩, -2, 0,
       ExitReason.sl⟩],
     [⟨⟨120, some 0⟩, 998⟩], false⟩ := by
  have haux : runSymbolAux concreteCfg "EURUSD" (⟨0, some 0⟩, ⟨10, 10, 9, 10⟩)
      [(⟨60, some 0⟩, ⟨10, 11, 9, 10⟩), (⟨120, some 0⟩, ⟨10, 10, 8, 9⟩),
       (⟨180, some 0⟩, ⟨9, 9, 9, 9⟩)]
      ⟨1000, [], [], none, ⟨none, none, none⟩, false⟩ =
      ⟨998,
       [⟨"EURUSD", Side.long, 2, 10, 9, ⟨120, some 0⟩, ⟨120, some 0⟩, -2, 0,
         ExitReason.sl⟩],
       [⟨⟨120, some 0⟩, 998⟩],
       some ⟨"EURUSD", Side.short, 499/225, 9, 99/10, 81/10, ⟨180, some 0⟩⟩,
       ⟨some 11, some 8, some 0⟩, false⟩ := by
    rw [runSymbolAux_pair, concrete_step1, runSymbolAux_pair, concrete_step2,
      runSymbolAux_pair, concrete_step3, runSymbolAux_nil]
  rw [engineRun_eq, runAllSymbols_pair, runAllSymbols_nil,
    runSymbol_run _ _ _ _ _ (by norm_num)]
  simp only [haux]

/-! Structural lemmas about the two halves of a loop iteration. -/

theorem entryStep_fields (cfg : Config) (sym : String) (ts : PyTimestamp)
    (bar : Bar) (nts : PyTimestamp) (nbar : Bar) (rs : RunState) :
    (entryStep cfg sym ts bar nts nbar rs).equity = rs.equity ∧
    (entryStep cfg sym ts bar nts nbar rs).trades = rs.trades ∧
    (entryStep cfg sym ts bar nts nbar rs).equity_curve = rs.equity_curve := by
  cases hp : rs.position with
  | some p =>
    rw [entryStep_position_some _ _ _ _ _ _ hp]
    exact ⟨rfl, rfl, rfl⟩
  | none =>
    cases hsig : (evaluate_bar cfg ts bar rs.state).1 with
    | none =>
      rw [entryStep_no_signal _ _ _ hp hsig]
      exact ⟨rfl, rfl, rfl⟩
    | some side =>
      rw [entryStep_signal _ _ _ hp hsig]
      exact ⟨rfl, rfl, rfl⟩

theorem exitStep_flag (cfg : Config) (ts : PyTimestamp) (bar : Bar)
    (rs : RunState) :
    (exitStep cfg ts bar rs).sizing_zero_div = rs.sizing_zero_div := by
  cases hp : rs.position with
  | none => rw [exitStep_no_position _ _ _ hp]
  | some pos =>
    cases hx : checkExit pos bar with
    | none => rw [exitStep_no_exit _ _ hp hx]
    | some rb => rw [exitStep_close hp hx]

theorem exitStep_state (cfg : Config) (ts : PyTimestamp) (bar : Bar)
    (rs : RunState) :
    (exitStep cfg ts bar rs).state = rs.state := by
  cases hp : rs.position with
  | none => rw [exitStep_no_position _ _ _ hp]
  | some pos =>
    cases hx : checkExit pos bar with
    | none => rw [exitStep_no_exit _ _ hp hx]
    | some rb => rw [exitStep_close hp hx]

theorem entryStep_flag (cfg : Config) (sym : String) (ts : PyTimestamp)
    (bar : Bar) (nts : PyTimestamp) (nbar : Bar) (rs : RunState)
    (h : nbar.opn ≠ 0) :
    (entryStep cfg sym ts bar nts nbar rs).sizing_zero_div =
      rs.sizing_zero_div := by
  cases hp : rs.position with
  | some p => rw [entryStep_position_some _ _ _ _ _ _ hp]
  | none =>
    cases hsig : (evaluate_bar cfg ts bar rs.state).1 with
    | none => rw [entryStep_no_signal _ _ _ hp hsig]
    | some side =>
      rw [entryStep_signal _ _ _ hp hsig]
      exact if_neg h

theorem checkExit_base {pos : Position} {bar : Bar} {r : ExitReason}
    {base : ℚ} (h : checkExit pos bar = some (r, base)) :
    (r = ExitReason.sl ∧ base = pos.sl_price) ∨
    (r = ExitReason.tp ∧ base = pos.tp_price) := by
  cases hs : pos.side with
  | long =>
    rw [checkExit_eq_long _ hs] at h
    split_ifs at h with h1 h2
    · simp only [Option.some.injEq, Prod.mk.injEq] at h
      exact Or.inl ⟨h.1.symm, h.2.symm⟩
    · simp only [Option.some.injEq, Prod.mk.injEq] at h
      exact Or.inr ⟨h.1.symm, h.2.symm⟩
  | short =>
    rw [checkExit_eq_short _ hs] at h
    split_ifs at h with h1 h2
    · simp only [Option.some.injEq, Prod.mk.injEq] at h
      exact Or.inl ⟨h.1.symm, h.2.symm⟩
    · simp only [Option.some.injEq, Prod.mk.injEq] at h
      exact Or.inr ⟨h.1.symm, h.2.symm⟩

/-! Propagation of the division-by-zero observer through the loop. -/

theorem stepBar_flag (cfg : Config) (sym : String) (ts : PyTimestamp)
    (bar : Bar) (nts : PyTimestamp) (nbar : Bar) (rs : RunState)
    (h : nbar.opn ≠ 0) :
    (stepBar cfg sym ts bar nts nbar rs).sizing_zero_div =
      rs.sizing_zero_div := by
  rw [stepBar_eq, entryStep_flag _ _ _ _ _ _ _ h, exitStep_flag]

theorem runSymbolAux_flag (cfg : Config) (sym : String) :
    ∀ (rest : List (PyTimestamp × Bar)) (cur : PyTimestamp × Bar)
      (rs : RunState), (∀ tb ∈ rest, tb.2.opn ≠ 0) →
      (runSymbolAux cfg sym cur rest rs).sizing_zero_div =
        rs.sizing_zero_div := by
  intro rest
  induction rest with
  | nil => intro cur rs _; rfl
  | cons nxt rest ih =>
    intro cur rs h
    rw [runSymbolAux_cons, ih _ _ (fun tb htb => h tb (List.mem_cons_of_mem _ htb)),
      stepBar_flag _ _ _ _ _ _ _ (h nxt (List.mem_cons_self _ _))]

theorem runSymbol_flag (cfg : Config) (sym : String)
    (df : List (PyTimestamp × Bar)) (acc : EngineAcc)
    (h : ∀ tb ∈ df, tb.2.opn ≠ 0) :
    (runSymbol cfg sym df acc).sizing_zero_div = acc.sizing_zero_div := by
  by_cases hlen : df.length < 2
  · rw [runSymbol_skip _ _ _ hlen]
  · cases df with
    | nil => rw [runSymbol_skip _ _ _ (by simp)]
    | cons cur rest =>
      rw [runSymbol_run _ _ _ _ _ hlen]
      exact runSymbolAux_flag _ _ _ _ _
        (fun tb htb => h tb (List.mem_cons_of_mem _ htb))

theorem runAllSymbols_flag (cfg : Config) :
    ∀ (data : List (String × List (PyTimestamp × Bar))) (acc : EngineAcc),
      (∀ sd ∈ data, ∀ tb ∈ sd.2, tb.2.opn ≠ 0) →
      (runAllSymbols cfg data acc).sizing_zero_div = acc.sizing_zero_div := by
  intro data
  induction data with
  | nil => intro acc _; rfl
  | cons sd rest ih =>
    intro acc h
    cases sd with
    | mk sym df =>
      rw [runAllSymbols_pair, ih _ (fun x hx => h x (List.mem_cons_of_mem _ hx)),
        runSymbol_flag _ _ _ _ (h (sym, df) (List.mem_cons_self _ _))]

/-! The final bar of a series: everything the engine produces depends on it
only through its timestamp and its open price. -/

theorem stepBar_next_open (cfg : Config) (sym : String) (ts : PyTimestamp)
    (bar : Bar) (nts : PyTimestamp) (o hi1 lo1 cl1 hi2 lo2 cl2 : ℚ)
    (rs : RunState) :
    stepBar cfg sym ts bar nts ⟨o, hi1, lo1, cl1⟩ rs =
      stepBar cfg sym ts bar nts ⟨o, hi2, lo2, cl2⟩ rs := rfl

theorem runSymbolAux_last (cfg : Config) (sym : String) (ts : PyTimestamp)
    (o hi1 lo1 cl1 hi2 lo2 cl2 : ℚ) :
    ∀ (l : List (PyTimestamp × Bar)) (cur : PyTimestamp × Bar)
      (rs : RunState),
      runSymbolAux cfg sym cur (l ++ [(ts, ⟨o, hi1, lo1, cl1⟩)]) rs =
        runSymbolAux cfg sym cur (l ++ [(ts, ⟨o, hi2, lo2, cl2⟩)]) rs := by
  intro l
  induction l with
  | nil =>
    intro cur rs
    rw [List.nil_append, List.nil_append, runSymbolAux_cons, runSymbolAux_cons,
      runSymbolAux_nil, runSymbolAux_nil]
    exact stepBar_next_open cfg sym cur.1 cur.2 ts o hi1 lo1 cl1 hi2 lo2 cl2 rs
  | cons x l ih =>
    intro cur rs
    rw [List.cons_append, List.cons_append, runSymbolAux_cons,
      runSymbolAux_cons]
    exact ih _ _

/-! Equity accounting: the loop preserves `AccInv`. -/

theorem netSum_nil : netSum [] = 0 := rfl

theorem netSum_append_single (l : List Trade) (t : Trade) :
    netSum (l ++ [t]) = netSum l + (t.pnl - t.fees) := by
  simp [netSum, tradeNet]

theorem postTradeEquities_nil (e0 : ℚ) : postTradeEquities e0 [] = [] := rfl

theorem postTradeEquities_length (e0 : ℚ) (l : List Trade) :
    (postTradeEquities e0 l).length = l.length := by
  simp [postTradeEquities]

theorem postTradeEquities_append_single (e0 : ℚ) (l : List Trade)
    (t : Trade) :
    postTradeEquities e0 (l ++ [t]) =
      postTradeEquities e0 l ++ [e0 + netSum (l ++ [t])] := by
  unfold postTradeEquities
  rw [List.length_append, List.length_singleton, List.range_succ,
    List.map_append]
  congr 1
  · refine List.map_congr_left ?_
    intro i hi
    rw [List.take_append_of_le_length]
    exact Nat.succ_le_of_lt (List.mem_range.mp hi)
  · rw [List.map_singleton, List.take_of_length_le (by simp)]

theorem exitStep_close_fields {rs : RunState} {pos : Position} {cfg : Config}
    {ts : PyTimestamp} {bar : Bar} {r : ExitReason} {base : ℚ}
    (h : rs.position = some pos) (hx : checkExit pos bar = some (r, base)) :
    (exitStep cfg ts bar rs).equity = rs.equity +
      (pnlOf pos.side pos.entry_price (exitFill cfg pos.side base) pos.volume -
       compute_fees cfg pos.volume) ∧
    (exitStep cfg ts bar rs).trades = rs.trades ++
      [⟨pos.symbol, pos.side, pos.volume, pos.entry_price,
        exitFill cfg pos.side base, pos.entry_time, ts,
        pnlOf pos.side pos.entry_price (exitFill cfg pos.side base) pos.volume,
        compute_fees cfg pos.volume, r⟩] ∧
    (exitStep cfg ts bar rs).equity_curve = rs.equity_curve ++
      [⟨ts, rs.equity +
        (pnlOf pos.side pos.entry_price (exitFill cfg pos.side base)
          pos.volume - compute_fees cfg pos.volume)⟩] ∧
    (exitStep cfg ts bar rs).position = none := by
  rw [exitStep_close h hx]
  exact ⟨rfl, rfl, rfl, rfl⟩

theorem exitStep_AccInv (cfg : Config) (ts : PyTimestamp) (bar : Bar)
    (rs : RunState) (e0 : ℚ)
    (h : AccInv e0 rs.equity rs.trades rs.equity_curve) :
    AccInv e0 (exitStep cfg ts bar rs).equity (exitStep cfg ts bar rs).trades
      (exitStep cfg ts bar rs).equity_curve := by
  cases hp : rs.position with
  | none => rw [exitStep_no_position _ _ _ hp]; exact h
  | some pos =>
    cases hx : checkExit pos bar with
    | none => rw [exitStep_no_exit _ _ hp hx]; exact h
    | some rb =>
      obtain ⟨r, base⟩ := rb
      obtain ⟨h1, h2⟩ := h
      rw [(exitStep_close_fields hp hx).1, (exitStep_close_fields hp hx).2.1,
        (exitStep_close_fields hp hx).2.2.1]
      constructor
      · simp only [netSum_append_single, h1]
        ring
      · simp only [List.map_append, List.map_cons, List.map_nil, h2,
          postTradeEquities_append_single, netSum_append_single, h1]
        congr 2
        ring

theorem entryStep_AccInv (cfg : Config) (sym : String) (ts : PyTimestamp)
    (bar : Bar) (nts : PyTimestamp) (nbar : Bar) (rs : RunState) (e0 : ℚ)
    (h : AccInv e0 rs.equity rs.trades rs.equity_curve) :
    AccInv e0 (entryStep cfg sym ts bar nts nbar rs).equity
      (entryStep cfg sym ts bar nts nbar rs).trades
      (entryStep cfg sym ts bar nts nbar rs).equity_curve := by
  rw [(entryStep_fields cfg sym ts bar nts nbar rs).1,
    (entryStep_fields cfg sym ts bar nts nbar rs).2.1,
    (entryStep_fields cfg sym ts bar nts nbar rs).2.2]
  exact h

theorem stepBar_AccInv (cfg : Config) (sym : String) (ts : PyTimestamp)
    (bar : Bar) (nts : PyTimestamp) (nbar : Bar) (rs : RunState) (e0 : ℚ)
    (h : AccInv e0 rs.equity rs.trades rs.equity_curve) :
    AccInv e0 (stepBar cfg sym ts bar nts nbar rs).equity
      (stepBar cfg sym ts bar nts nbar rs).trades
      (stepBar cfg sym ts bar nts nbar rs).equity_curve := by
  rw [stepBar_eq]
  exact entryStep_AccInv _ _ _ _ _ _ _ _ (exitStep_AccInv _ _ _ _ _ h)

theorem runSymbolAux_AccInv (cfg : Config) (sym : String) (e0 : ℚ) :
    ∀ (rest : List (PyTimestamp × Bar)) (cur : PyTimestamp × Bar)
      (rs : RunState), AccInv e0 rs.equity rs.trades rs.equity_curve →
      AccInv e0 (runSymbolAux cfg sym cur rest rs).equity
        (runSymbolAux cfg sym cur rest rs).trades
        (runSymbolAux cfg sym cur rest rs).equity_curve := by
  intro rest
  induction rest with
  | nil => intro cur rs h; exact h
  | cons nxt rest ih =>
    intro cur rs h
    rw [runSymbolAux_cons]
    exact ih _ _ (stepBar_AccInv _ _ _ _ _ _ _ _ h)

theorem runSymbol_AccInv (cfg : Config) (sym : String)
    (df : List (PyTimestamp × Bar)) (acc : EngineAcc) (e0 : ℚ)
    (h : AccInv e0 acc.equity acc.trades acc.equity_curve) :
    AccInv e0 (runSymbol cfg sym df acc).equity
      (runSymbol cfg sym df acc).trades
      (runSymbol cfg sym df acc).equity_curve := by
  by_cases hlen : df.length < 2
  · rw [runSymbol_skip _ _ _ hlen]; exact h
  · cases df with
    | nil => rw [runSymbol_skip _ _ _ (by simp)]; exact h
    | cons cur rest =>
      rw [runSymbol_run _ _ _ _ _ hlen]
      exact runSymbolAux_AccInv _ _ _ _ _ _ h

theorem runAllSymbols_AccInv (cfg : Config) (e0 : ℚ) :
    ∀ (data : List (String × List (PyTimestamp × Bar))) (acc : EngineAcc),
      AccInv e0 acc.equity acc.trades acc.equity_curve →
      AccInv e0 (runAllSymbols cfg data acc).equity
        (runAllSymbols cfg data acc).trades
        (runAllSymbols cfg data acc).equity_curve := by
  intro data
  induction data with
  | nil => intro acc h; exact h
  | cons sd rest ih =>
    intro acc h
    cases sd with
    | mk sym df =>
      rw [runAllSymbols_pair]
      exact ih _ (runSymbol_AccInv _ _ _ _ _ h)

/-! Running intraday levels: reset, widening and max/min characterization. -/

theorem if_lt_max (a b : ℚ) : (if a < b then b else a) = max a b := by
  rcases le_or_lt b a with h | h
  · rw [if_neg (not_lt.mpr h), max_eq_left h]
  · rw [if_pos h, max_eq_right h.le]

theorem if_lt_min (a b : ℚ) : (if b < a then b else a) = min a b := by
  rcases le_or_lt a b with h | h
  · rw [if_neg (not_lt.mpr h), min_eq_left h]
  · rw [if_pos h, min_eq_right h.le]

theorem stratStep_new_day (cfg : Config) {d : ℤ} (tb : PyTimestamp × Bar)
    (s : IntradayState) (hd : localDate cfg tb.1 = d)
    (h : s.current_date ≠ some d) :
    stratStep cfg s tb = ⟨some tb.2.high, some tb.2.low, some d⟩ := by
  unfold stratStep
  rw [evaluate_bar_snd, dayReset_reset _ _ _ (by rw [hd]; exact h),
    updateLevels_none_none _ rfl rfl, hd]

theorem stratStep_same_day (cfg : Config) {d : ℤ} (tb : PyTimestamp × Bar)
    (s : IntradayState) {H L : ℚ} (hd : localDate cfg tb.1 = d)
    (hc : s.current_date = some d) (hH : s.high = some H)
    (hL : s.low = some L) :
    stratStep cfg s tb =
      ⟨some (max H tb.2.high), some (min L tb.2.low), some d⟩ := by
  unfold stratStep
  rw [evaluate_bar_snd, dayReset_keep _ _ _ (by rw [hd]; exact hc),
    updateLevels_some_some _ hH hL, if_lt_max, if_lt_min, hc]

theorem stratRun_cons (cfg : Config) (s : IntradayState)
    (tb : PyTimestamp × Bar) (l : List (PyTimestamp × Bar)) :
    stratRun cfg s (tb :: l) = stratRun cfg (stratStep cfg s tb) l := rfl

theorem stratRun_same_day (cfg : Config) (d : ℤ) :
    ∀ (l : List (PyTimestamp × Bar)) (s : IntradayState) (H L : ℚ),
      s.current_date = some d → s.high = some H → s.low = some L →
      (∀ tb ∈ l, localDate cfg tb.1 = d) →
      stratRun cfg s l =
        ⟨some (l.foldl (fun a tb => max a tb.2.high) H),
         some (l.foldl (fun a tb => min a tb.2.low) L), some d⟩ := by
  intro l
  induction l with
  | nil =>
    intro s H L hc hH hL _
    cases s with
    | mk a b c =>
      simp only at hc hH hL
      rw [hc, hH, hL]
      rfl
  | cons tb l ih =>
    intro s H L hc hH hL hall
    rw [stratRun_cons,
      stratStep_same_day cfg tb s (hall tb (List.mem_cons_self _ _)) hc hH hL,
      List.foldl_cons, List.foldl_cons]
    exact ih _ _ _ rfl rfl rfl
      (fun x hx => hall x (List.mem_cons_of_mem _ hx))

theorem engineRun_AccInv (cfg : Config)
    (data : List (String × List (PyTimestamp × Bar))) (e0 : ℚ) :
    AccInv e0 (engineRun cfg data e0).equity (engineRun cfg data e0).trades
      (engineRun cfg data e0).equity_curve := by
  rw [engineRun_eq]
  refine runAllSymbols_AccInv _ _ _ _ ⟨?_, ?_⟩
  · show (e0 : ℚ) = e0 + netSum []
    rw [netSum_nil, add_zero]
  · rfl

/-! Helper lemmas for the timing of exit checks relative to an opening. -/

theorem stepBar_no_close {rs : RunState} (cfg : Config) (sym : String)
    (ts : PyTimestamp) (bar : Bar) (nts : PyTimestamp) (nbar : Bar)
    (hp : rs.position = none) :
    (stepBar cfg sym ts bar nts nbar rs).trades = rs.trades ∧
    (stepBar cfg sym ts bar nts nbar rs).equity_curve = rs.equity_curve ∧
    (stepBar cfg sym ts bar nts nbar rs).equity = rs.equity := by
  rw [stepBar_eq, exitStep_no_position _ _ _ hp]
  exact ⟨(entryStep_fields _ _ _ _ _ _ _).2.1,
    (entryStep_fields _ _ _ _ _ _ _).2.2, (entryStep_fields _ _ _ _ _ _ _).1⟩

theorem stepBar_opened_entry_time {rs : RunState} {cfg : Config}
    {sym : String} {ts : PyTimestamp} {bar : Bar} {nts : PyTimestamp}
    {nbar : Bar} {p : Position} (hp : rs.position = none)
    (hopen : (stepBar cfg sym ts bar nts nbar rs).position = some p) :
    p.entry_time = nts := by
  rw [stepBar_eq, exitStep_no_position _ _ _ hp] at hopen
  cases hsig : (evaluate_bar cfg ts bar rs.state).1 with
  | none =>
    rw [entryStep_no_signal _ _ _ hp hsig] at hopen
    simp only [hp] at hopen
    exact Option.noConfusion hopen
  | some side =>
    rw [entryStep_signal _ _ _ hp hsig] at hopen
    simp only [Option.some.injEq] at hopen
    rw [← hopen]

/-! The ten claims. -/

/-- C1: on a bar whose range breaches both the stop and the target of the
open position (long: `low ≤ sl` and `tp ≤ high`; short: `sl ≤ high` and
`low ≤ tp`), the exit cascade picks the stop (it is checked first for both
sides), and the loop iteration closes the position with exit reason `sl`,
never `tp`. -/
theorem c1_stop_before_target (cfg : Config) (sym : String)
    (ts : PyTimestamp) (bar : Bar) (nts : PyTimestamp) (nbar : Bar)
    (rs : RunState) (pos : Position) (hpos : rs.position = some pos)
    (hboth : (pos.side = Side.long ∧ bar.low ≤ pos.sl_price ∧
                pos.tp_price ≤ bar.high) ∨
             (pos.side = Side.short ∧ pos.sl_price ≤ bar.high ∧
                bar.low ≤ pos.tp_price)) :
    checkExit pos bar = some (ExitReason.sl, pos.sl_price) ∧
    ∃ t, (stepBar cfg sym ts bar nts nbar rs).trades = rs.trades ++ [t] ∧
      t.reason = ExitReason.sl := by
  have hck : checkExit pos bar = some (ExitReason.sl, pos.sl_price) := by
    rcases hboth with ⟨hs, h1, _⟩ | ⟨hs, h1, _⟩
    · rw [checkExit_eq_long _ hs, if_pos h1]
    · rw [checkExit_eq_short _ hs, if_pos h1]
  refine ⟨hck,
    ⟨⟨pos.symbol, pos.side, pos.volume, pos.entry_price,
      exitFill cfg pos.side pos.sl_price, pos.entry_time, ts,
      pnlOf pos.side pos.entry_price (exitFill cfg pos.side pos.sl_price)
        pos.volume, compute_fees cfg pos.volume, ExitReason.sl⟩, ?_, rfl⟩⟩
  rw [stepBar_eq, (entryStep_fields _ _ _ _ _ _ _).2.1,
    (exitStep_close_fields hpos hck).2.1]

/-- C1 witness: a long position with stop 9 and target 11 on a bar with
low 8 and high 12 is closed with reason `sl`. -/
theorem c1_witness :
    checkExit ⟨"X", Side.long, 1, 10, 9, 11, ⟨0, some 0⟩⟩ ⟨10, 12, 8, 10⟩ =
      some (ExitReason.sl, 9) ∧
    ∃ t, (stepBar concreteCfg "X" ⟨0, some 0⟩ ⟨10, 12, 8, 10⟩ ⟨60, some 0⟩
        ⟨1, 1, 1, 1⟩
        ⟨1000, [], [], some ⟨"X", Side.long, 1, 10, 9, 11, ⟨0, some 0⟩⟩,
          ⟨none, none, none⟩, false⟩).trades = [] ++ [t] ∧
      t.reason = ExitReason.sl :=
  c1_stop_before_target concreteCfg "X" ⟨0, some 0⟩ ⟨10, 12, 8, 10⟩
    ⟨60, some 0⟩ ⟨1, 1, 1, 1⟩ _ _ rfl
    (Or.inl ⟨rfl, by norm_num, by norm_num⟩)

/-- C2: after any run, the final equity is exactly the initial equity plus
the sum of `pnl - fees` over the closed trades; the equity curve has exactly
one point per closed trade, and the `i`-th point carries exactly the
post-trade equity `e0 + netSum (trades.take (i+1))`. -/
theorem c2_equity_accounting (cfg : Config)
    (data : List (String × List (PyTimestamp × Bar))) (e0 : ℚ) :
    (engineRun cfg data e0).equity =
      e0 + netSum (engineRun cfg data e0).trades ∧
    (engineRun cfg data e0).equity_curve.length =
      (engineRun cfg data e0).trades.length ∧
    (engineRun cfg data e0).equity_curve.map EquityPoint.equity =
      postTradeEquities e0 (engineRun cfg data e0).trades := by
  obtain ⟨h1, h2⟩ := engineRun_AccInv cfg data e0
  refine ⟨h1, ?_, h2⟩
  have hlen := congrArg List.length h2
  rwa [List.length_map, postTradeEquities_length] at hlen

/-- C3 counterexample: in a four-bar single-day run, the position opened off
the signal on the second bar (priced at the third bar's open, with
`entry_time` the third bar's timestamp) is closed by the exit-check against
that very third bar: the only realized trade has `exit_time = entry_time`.
The exit-check therefore happens against the bar on which the position was
opened, one bar (not two) after the signal bar. -/
theorem c3_counterexample :
    (engineRun concreteCfg
       [("EURUSD",
         [(⟨0, some 0⟩, ⟨10, 10, 9, 10⟩), (⟨60, some 0⟩, ⟨10, 11, 9, 10⟩),
          (⟨120, some 0⟩, ⟨10, 10, 8, 9⟩), (⟨180, some 0⟩, ⟨9, 9, 9, 9⟩)])]
       1000).trades.map (fun t => (t.entry_time, t.exit_time, t.reason)) =
      [(⟨120, some 0⟩, ⟨120, some 0⟩, ExitReason.sl)] := by
  rw [concrete_run]
  rfl

/-- C3 (amended): a position opened during one loop iteration is never
exit-checked during that same iteration (no trade, equity point or equity
change can come out of an iteration that starts with no open position), and
its `entry_time` is the next bar's timestamp; it becomes eligible for
exit-check at the top of the immediately following iteration, whose current
bar is that same next bar — so the earliest possible exit has
`exit_time = entry_time`, one bar after the signal bar, not two. -/
theorem c3_exit_timing (cfg : Config) (sym : String) (ts : PyTimestamp)
    (bar : Bar) (nts : PyTimestamp) (nbar : Bar) (t2 : PyTimestamp) (b2 : Bar)
    (rs : RunState) :
    (rs.position = none →
       (stepBar cfg sym ts bar nts nbar rs).trades = rs.trades ∧
       (stepBar cfg sym ts bar nts nbar rs).equity_curve = rs.equity_curve ∧
       (stepBar cfg sym ts bar nts nbar rs).equity = rs.equity) ∧
    (∀ p : Position, rs.position = none →
       (stepBar cfg sym ts bar nts nbar rs).position = some p →
       p.entry_time = nts) ∧
    (∀ (p : Position) (r : ExitReason) (base : ℚ), rs.position = none →
       (stepBar cfg sym ts bar nts nbar rs).position = some p →
       checkExit p nbar = some (r, base) →
       ∃ t, (stepBar cfg sym nts nbar t2 b2
           (stepBar cfg sym ts bar nts nbar rs)).trades = rs.trades ++ [t] ∧
         t.exit_time = nts ∧ t.entry_time = nts ∧ t.reason = r) := by
  refine ⟨fun hp => stepBar_no_close cfg sym ts bar nts nbar hp,
    fun p hp hopen => stepBar_opened_entry_time hp hopen, ?_⟩
  intro p r base hp hopen hck
  refine ⟨⟨p.symbol, p.side, p.volume, p.entry_price,
    exitFill cfg p.side base, p.entry_time, nts,
    pnlOf p.side p.entry_price (exitFill cfg p.side base) p.volume,
    compute_fees cfg p.volume, r⟩, ?_, rfl,
    stepBar_opened_entry_time hp hopen, rfl⟩
  rw [stepBar_eq cfg sym nts nbar t2 b2, (entryStep_fields _ _ _ _ _ _ _).2.1,
    (exitStep_close_fields hopen hck).2.1,
    (stepBar_no_close cfg sym ts bar nts nbar hp).1]

/-- C3 witness: the two-step eligibility conjunct applied to the concrete
run of `concrete_step2`: the position opened there is closed by the very
next iteration's exit-check with `exit_time = entry_time = ⟨120, some 0⟩`. -/
theorem c3_witness :
    ∃ t, (stepBar concreteCfg "EURUSD" ⟨120, some 0⟩ ⟨10, 10, 8, 9⟩
        ⟨180, some 0⟩ ⟨9, 9, 9, 9⟩
        (stepBar concreteCfg "EURUSD" ⟨60, some 0⟩ ⟨10, 11, 9, 10⟩
          ⟨120, some 0⟩ ⟨10, 10, 8, 9⟩
          ⟨1000, [], [], none, ⟨some 10, some 9, some 0⟩, false⟩)).trades =
      [] ++ [t] ∧
      t.exit_time = ⟨120, some 0⟩ ∧ t.entry_time = ⟨120, some 0⟩ ∧
      t.reason = ExitReason.sl := by
  refine (c3_exit_timing concreteCfg "EURUSD" ⟨60, some 0⟩ ⟨10, 11, 9, 10⟩
    ⟨120, some 0⟩ ⟨10, 10, 8, 9⟩ ⟨180, some 0⟩ ⟨9, 9, 9, 9⟩
    ⟨1000, [], [], none, ⟨some 10, some 9, some 0⟩, false⟩).2.2
    ⟨"EURUSD", Side.long, 2, 10, 9, 11, ⟨120, some 0⟩⟩ ExitReason.sl 9 rfl
    ?_ ?_
  · rw [concrete_step2]
  · rw [checkExit_eq_long _ rfl, if_pos (by norm_num)]

/-- C4 counterexample: a three-bar run in which the second bar's signal
opens a long position priced at the final bar's open; the final bar's low
breaches the stop (`checkExit` fires `sl` on it), yet the loop never
exit-checks the final bar: the run ends with zero trades and the position
still open — the final bar is *not* used for evaluation. -/
theorem c4_counterexample :
    (runSymbolAux concreteCfg "EURUSD" (⟨0, some 0⟩, ⟨10, 10, 9, 10⟩)
       [(⟨60, some 0⟩, ⟨10, 11, 9, 10⟩), (⟨120, some 0⟩, ⟨10, 10, 8, 9⟩)]
       ⟨1000, [], [], none, ⟨none, none, none⟩, false⟩).trades = [] ∧
    (runSymbolAux concreteCfg "EURUSD" (⟨0, some 0⟩, ⟨10, 10, 9, 10⟩)
       [(⟨60, some 0⟩, ⟨10, 11, 9, 10⟩), (⟨120, some 0⟩, ⟨10, 10, 8, 9⟩)]
       ⟨1000, [], [], none, ⟨none, none, none⟩, false⟩).position =
      some ⟨"EURUSD", Side.long, 2, 10, 9, 11, ⟨120, some 0⟩⟩ ∧
    checkExit ⟨"EURUSD", Side.long, 2, 10, 9, 11, ⟨120, some 0⟩⟩
      ⟨10, 10, 8, 9⟩ = some (ExitReason.sl, 9) ∧
    (engineRun concreteCfg
       [("EURUSD",
         [(⟨0, some 0⟩, ⟨10, 10, 9, 10⟩), (⟨60, some 0⟩, ⟨10, 11, 9, 10⟩),
          (⟨120, some 0⟩, ⟨10, 10, 8, 9⟩)])] 1000).trades = [] := by
  have haux : runSymbolAux concreteCfg "EURUSD"
      (⟨0, some 0⟩, ⟨10, 10, 9, 10⟩)
      [(⟨60, some 0⟩, ⟨10, 11, 9, 10⟩), (⟨120, some 0⟩, ⟨10, 10, 8, 9⟩)]
      ⟨1000, [], [], none, ⟨none, none, none⟩, false⟩ =
      ⟨1000, [], [],
       some ⟨"EURUSD", Side.long, 2, 10, 9, 11, ⟨120, some 0⟩⟩,
       ⟨some 11, some 9, some 0⟩, false⟩ := by
    rw [runSymbolAux_pair, concrete_step1, runSymbolAux_pair, concrete_step2,
      runSymbolAux_nil]
  refine ⟨by rw [haux], by rw [haux], ?_, ?_⟩
  · rw [checkExit_eq_long _ rfl, if_pos (by norm_num)]
  · rw [engineRun_eq, runAllSymbols_pair, runAllSymbols_nil,
      runSymbol_run _ _ _ _ _ (by norm_num)]
    simp only [haux]

/-- C4 (amended): the final bar of a series is never used as a current bar:
it is neither exit-checked nor signal-evaluated, so the whole engine output
is unchanged under any change of the final bar's high, low and close; the
final bar contributes only its timestamp and open price, which price and
time an entry whose signal fired on the second-to-last bar. -/
theorem c4_final_bar_unused (cfg : Config) (sym : String)
    (l : List (PyTimestamp × Bar)) (ts : PyTimestamp)
    (o hi1 lo1 cl1 hi2 lo2 cl2 : ℚ) (acc : EngineAcc) :
    runSymbol cfg sym (l ++ [(ts, ⟨o, hi1, lo1, cl1⟩)]) acc =
      runSymbol cfg sym (l ++ [(ts, ⟨o, hi2, lo2, cl2⟩)]) acc := by
  cases l with
  | nil =>
    rw [List.nil_append, List.nil_append, runSymbol_skip _ _ _ (by norm_num),
      runSymbol_skip _ _ _ (by norm_num)]
  | cons cur rest =>
    rw [List.cons_append, List.cons_append,
      runSymbol_run _ _ _ _ _ (by simp), runSymbol_run _ _ _ _ _ (by simp),
      runSymbolAux_last]

/-- C5: the session clock converts to the target timezone, takes the local
time-of-day, and tests `session_start ≤ t < session_end`; the end boundary
is excluded; an aware timestamp and the naive timestamp denoting the same
UTC instant agree. -/
theorem c5_session_clock :
    (∀ (ts : PyTimestamp) (s e off : ℤ),
       is_in_session ts s e off ↔
         s ≤ timeOfDay (to_timezone ts off) ∧
           timeOfDay (to_timezone ts off) < e) ∧
    (∀ (ts : PyTimestamp) (s e off : ℤ),
       timeOfDay (to_timezone ts off) = e → ¬is_in_session ts s e off) ∧
    (∀ w off s e tzo : ℤ,
       is_in_session ⟨w, some off⟩ s e tzo ↔
         is_in_session ⟨w - off, none⟩ s e tzo) := by
  refine ⟨fun ts s e off => Iff.rfl, ?_, ?_⟩
  · intro ts s e off h hin
    obtain ⟨h1, h2⟩ := hin
    rw [h] at h2
    exact lt_irrefl e h2
  · intro w off s e tzo
    have heq : to_timezone ⟨w, some off⟩ tzo =
        to_timezone ⟨w - off, none⟩ tzo := by
      unfold to_timezone tz_convert instantOf
      simp
    unfold is_in_session
    rw [heq]

/-- C5 witness: a timestamp whose local time-of-day equals the session end
(here 120 minutes) is outside the session. -/
theorem c5_witness : ¬is_in_session ⟨100, none⟩ 0 120 20 :=
  c5_session_clock.2.1 ⟨100, none⟩ 0 120 20
    (by norm_num [timeOfDay, to_timezone, tz_convert, instantOf])

/-- C6: the signal generator emits no signal when both breakout triggers
fire against the pre-update levels of the same bar, and no signal for a bar
outside the session window; the session filter is applied after the level
bookkeeping, whose result is unconditionally
`updateLevels (dayReset cfg ts s) bar`. -/
theorem c6_ambiguous_and_session (cfg : Config) (ts : PyTimestamp)
    (bar : Bar) (s : IntradayState) :
    (longTrigger (dayReset cfg ts s) bar →
       shortTrigger (dayReset cfg ts s) bar →
       (evaluate_bar cfg ts bar s).1 = none) ∧
    (¬is_in_session ts cfg.session_start cfg.session_end cfg.timezone →
       (evaluate_bar cfg ts bar s).1 = none) ∧
    (evaluate_bar cfg ts bar s).2 = updateLevels (dayReset cfg ts s) bar :=
  ⟨fun h1 h2 => evaluate_bar_fst_none_both h1 h2,
   fun h => evaluate_bar_fst_out bar s h,
   evaluate_bar_snd cfg ts bar s⟩

/-- C6 witness: a bar breaking both the running high (11 > 10) and the
running low (8 < 9) inside the session yields no signal. -/
theorem c6_witness :
    (evaluate_bar concreteCfg ⟨60, some 0⟩ ⟨10, 11, 8, 10⟩
       ⟨some 10, some 9, some 0⟩).1 = none := by
  have hd : dayReset concreteCfg ⟨60, some 0⟩ ⟨some 10, some 9, some 0⟩ =
      ⟨some 10, some 9, some 0⟩ :=
    dayReset_keep _ _ _
      (by norm_num [localDate, localDateOf, tz_convert, instantOf,
        concreteCfg])
  exact (c6_ambiguous_and_session concreteCfg ⟨60, some 0⟩ ⟨10, 11, 8, 10⟩
      ⟨some 10, some 9, some 0⟩).1
    (by rw [hd]; exact (longTrigger_some rfl).mpr (by norm_num))
    (by rw [hd]; exact (shortTrigger_some rfl).mpr (by norm_num))

/-- C7: the running levels reset exactly at the first bar whose local date
differs from `current_date` (to that bar's own high/low); across any run of
same-day bars after such a reset, the state is exactly the max of the highs
and the min of the lows seen since the day changed; and each same-day step
widens the levels monotonically without touching the date. -/
theorem c7_running_levels (cfg : Config) :
    (∀ (ts : PyTimestamp) (bar : Bar) (s : IntradayState),
       s.current_date ≠ some (localDate cfg ts) →
       stratStep cfg s (ts, bar) =
         ⟨some bar.high, some bar.low, some (localDate cfg ts)⟩) ∧
    (∀ (d : ℤ) (tb : PyTimestamp × Bar) (l : List (PyTimestamp × Bar))
       (s : IntradayState),
       s.current_date ≠ some d → localDate cfg tb.1 = d →
       (∀ x ∈ l, localDate cfg x.1 = d) →
       stratRun cfg s (tb :: l) =
         ⟨some (l.foldl (fun a x => max a x.2.high) tb.2.high),
          some (l.foldl (fun a x => min a x.2.low) tb.2.low), some d⟩) ∧
    (∀ (ts : PyTimestamp) (bar : Bar) (s : IntradayState) (H L : ℚ),
       s.current_date = some (localDate cfg ts) → s.high = some H →
       s.low = some L →
       stratStep cfg s (ts, bar) =
         ⟨some (max H bar.high), some (min L bar.low), s.current_date⟩ ∧
       H ≤ max H bar.high ∧ min L bar.low ≤ L) := by
  refine ⟨?_, ?_, ?_⟩
  · intro ts bar s h
    exact stratStep_new_day cfg (ts, bar) s rfl h
  · intro d tb l s h hd hall
    rw [stratRun_cons, stratStep_new_day cfg tb s hd h]
    exact stratRun_same_day cfg d l _ _ _ rfl rfl rfl hall
  · intro ts bar s H L hc hH hL
    refine ⟨?_, le_max_left _ _, min_le_left _ _⟩
    rw [stratStep_same_day cfg (ts, bar) s rfl hc hH hL, hc]

/-- C7 witness: threading two same-day bars from a fresh state gives levels
`max 10 11` and `min 9 9` with the day stamped. -/
theorem c7_witness :
    stratRun concreteCfg ⟨none, none, none⟩
      [(⟨0, some 0⟩, ⟨10, 10, 9, 10⟩), (⟨60, some 0⟩, ⟨10, 11, 9, 10⟩)] =
      ⟨some (max 10 11), some (min 9 9), some 0⟩ :=
  (c7_running_levels concreteCfg).2.1 0 (⟨0, some 0⟩, ⟨10, 10, 9, 10⟩)
    [(⟨60, some 0⟩, ⟨10, 11, 9, 10⟩)] ⟨none, none, none⟩ (by simp)
    (by norm_num [localDate, localDateOf, tz_convert, instantOf, concreteCfg])
    (by
      intro x hx
      rw [List.mem_singleton] at hx
      subst hx
      norm_num [localDate, localDateOf, tz_convert, instantOf, concreteCfg])

/-- C8: entries fill at the next bar's open shifted by half-spread plus
slippage toward the trader's disfavor (long `+`, short `-`), and exits fill
at the breached stop/target level (never the bar's extreme) shifted the
other way (long `-`, short `+`). -/
theorem c8_fill_prices (cfg : Config) (sym : String) (ts : PyTimestamp)
    (bar : Bar) (nts : PyTimestamp) (nbar : Bar) (rs : RunState) :
    (∀ side : Side, rs.position = none →
       (evaluate_bar cfg ts bar rs.state).1 = some side →
       (stepBar cfg sym ts bar nts nbar rs).position =
         some ⟨sym, side, volumeOf cfg rs.equity nbar.opn,
           entryFill cfg side nbar.opn,
           slPriceOf cfg side (entryFill cfg side nbar.opn),
           tpPriceOf cfg side (entryFill cfg side nbar.opn), nts⟩) ∧
    (∀ (pos : Position) (r : ExitReason) (base : ℚ),
       rs.position = some pos → checkExit pos bar = some (r, base) →
       (base = pos.sl_price ∨ base = pos.tp_price) ∧
       ∃ t, (exitStep cfg ts bar rs).trades = rs.trades ++ [t] ∧
         t.exit_price = exitFill cfg pos.side base) ∧
    (∀ price : ℚ,
       entryFill cfg Side.long price =
         price + cfg.spread / 2 + cfg.slippage ∧
       entryFill cfg Side.short price =
         price - cfg.spread / 2 - cfg.slippage ∧
       exitFill cfg Side.long price =
         price - cfg.spread / 2 - cfg.slippage ∧
       exitFill cfg Side.short price =
         price + cfg.spread / 2 + cfg.slippage) := by
  refine ⟨?_, ?_, fun price => ⟨rfl, rfl, rfl, rfl⟩⟩
  · intro side hp hsig
    rw [stepBar_eq, exitStep_no_position _ _ _ hp,
      entryStep_signal _ _ _ hp hsig]
  · intro pos r base hp hck
    refine ⟨?_, ⟨_, (exitStep_close_fields hp hck).2.1, rfl⟩⟩
    rcases checkExit_base hck with ⟨_, hb⟩ | ⟨_, hb⟩
    · exact Or.inl hb
    · exact Or.inr hb

/-- C8 witness: the long entry off the breakout of `concrete_step2` fills
at the next bar's open through the fill model. -/
theorem c8_witness :
    (stepBar concreteCfg "EURUSD" ⟨60, some 0⟩ ⟨10, 11, 9, 10⟩ ⟨120, some 0⟩
       ⟨10, 10, 8, 9⟩
       ⟨1000, [], [], none, ⟨some 10, some 9, some 0⟩, false⟩).position =
      some ⟨"EURUSD", Side.long, volumeOf concreteCfg 1000 10,
        entryFill concreteCfg Side.long 10,
        slPriceOf concreteCfg Side.long (entryFill concreteCfg Side.long 10),
        tpPriceOf concreteCfg Side.long (entryFill concreteCfg Side.long 10),
        ⟨120, some 0⟩⟩ := by
  have hd : dayReset concreteCfg ⟨60, some 0⟩ ⟨some 10, some 9, some 0⟩ =
      ⟨some 10, some 9, some 0⟩ :=
    dayReset_keep _ _ _
      (by norm_num [localDate, localDateOf, tz_convert, instantOf,
        concreteCfg])
  have hsig : (evaluate_bar concreteCfg ⟨60, some 0⟩ ⟨10, 11, 9, 10⟩
      ⟨some 10, some 9, some 0⟩).1 = some Side.long := by
    apply evaluate_bar_fst_long
    · rw [hd]; exact (longTrigger_some rfl).mpr (by norm_num)
    · rw [hd]
      exact fun hs => absurd ((shortTrigger_some rfl).mp hs) (by norm_num)
    · norm_num [is_in_session, timeOfDay, to_timezone, tz_convert, instantOf,
        concreteCfg]
  exact (c8_fill_prices concreteCfg "EURUSD" ⟨60, some 0⟩ ⟨10, 11, 9, 10⟩
    ⟨120, some 0⟩ ⟨10, 10, 8, 9⟩
    ⟨1000, [], [], none, ⟨some 10, some 9, some 0⟩, false⟩).1
    Side.long rfl hsig

/-- C9: a bar series with fewer than two bars leaves the accumulator (equity,
trades, equity curve) untouched, and an instrument with such a series can be
deleted from the run without changing the engine output: the remaining
instruments are processed as before. -/
theorem c9_short_series :
    (∀ (cfg : Config) (sym : String) (df : List (PyTimestamp × Bar))
       (acc : EngineAcc), df.length < 2 → runSymbol cfg sym df acc = acc) ∧
    (∀ (cfg : Config) (pre : List (String × List (PyTimestamp × Bar)))
       (sym : String) (df : List (PyTimestamp × Bar))
       (post : List (String × List (PyTimestamp × Bar))) (e0 : ℚ),
       df.length < 2 →
       engineRun cfg (pre ++ (sym, df) :: post) e0 =
         engineRun cfg (pre ++ post) e0) := by
  refine ⟨fun cfg sym df acc h => runSymbol_skip cfg sym acc h, ?_⟩
  intro cfg pre sym df post e0 h
  rw [engineRun_eq, engineRun_eq]
  unfold runAllSymbols
  rw [List.foldl_append, List.foldl_append, List.foldl_cons]
  simp only [runSymbol_skip _ _ _ h]

/-- C9 witness: a one-bar instrument is skipped and the run equals the run
without it. -/
theorem c9_witness :
    engineRun concreteCfg
      ([] ++ ("SOLO", [(⟨0, some 0⟩, ⟨1, 1, 1, 1⟩)]) :: []) 5 =
      engineRun concreteCfg ([] ++ []) 5 :=
  c9_short_series.2 concreteCfg [] "SOLO" [(⟨0, some 0⟩, ⟨1, 1, 1, 1⟩)] [] 5
    (by norm_num)

/-- C10: the sizing division `equity * equity_pct_per_trade / open_price`
has no zero-price guard: a run in which a signal fires against a next bar
whose open is zero reaches the division with a zero denominator (where the
Python engine raises `ZeroDivisionError`), witnessed by the
`sizing_zero_div` observer; and the observer stays `false` exactly under
the implicit precondition that every bar has a non-zero open. -/
theorem c10_sizing_division :
    (engineRun concreteCfg
       [("EURUSD",
         [(⟨0, some 0⟩, ⟨10, 10, 9, 10⟩), (⟨60, some 0⟩, ⟨10, 11, 9, 10⟩),
          (⟨120, some 0⟩, ⟨0, 1, 0, 1⟩)])] 1000).sizing_zero_div = true ∧
    (∀ (cfg : Config) (data : List (String × List (PyTimestamp × Bar)))
       (e0 : ℚ), (∀ sd ∈ data, ∀ tb ∈ sd.2, tb.2.opn ≠ 0) →
       (engineRun cfg data e0).sizing_zero_div = false) := by
  constructor
  · have hd : dayReset concreteCfg ⟨60, some 0⟩ ⟨some 10, some 9, some 0⟩ =
        ⟨some 10, some 9, some 0⟩ :=
      dayReset_keep _ _ _
        (by norm_num [localDate, localDateOf, tz_convert, instantOf,
          concreteCfg])
    have hsig : (evaluate_bar concreteCfg ⟨60, some 0⟩ ⟨10, 11, 9, 10⟩
        ⟨some 10, some 9, some 0⟩).1 = some Side.long := by
      apply evaluate_bar_fst_long
      · rw [hd]; exact (longTrigger_some rfl).mpr (by norm_num)
      · rw [hd]
        exact fun hs => absurd ((shortTrigger_some rfl).mp hs) (by norm_num)
      · norm_num [is_in_session, timeOfDay, to_timezone, tz_convert,
          instantOf, concreteCfg]
    have hstep2 : stepBar concreteCfg "EURUSD" ⟨60, some 0⟩ ⟨10, 11, 9, 10⟩
        ⟨120, some 0⟩ ⟨0, 1, 0, 1⟩
        ⟨1000, [], [], none, ⟨some 10, some 9, some 0⟩, false⟩ =
        ⟨1000, [], [],
         some ⟨"EURUSD", Side.long, volumeOf concreteCfg 1000 0,
           entryFill concreteCfg Side.long 0,
           slPriceOf concreteCfg Side.long (entryFill concreteCfg Side.long 0),
           tpPriceOf concreteCfg Side.long (entryFill concreteCfg Side.long 0),
           ⟨120, some 0⟩⟩,
         (evaluate_bar concreteCfg ⟨60, some 0⟩ ⟨10, 11, 9, 10⟩
           ⟨some 10, some 9, some 0⟩).2, true⟩ := by
      rw [stepBar_eq, exitStep_no_position _ _ _ rfl,
        entryStep_signal _ _ _ rfl hsig]
      norm_num
    have haux : runSymbolAux concreteCfg "EURUSD"
        (⟨0, some 0⟩, ⟨10, 10, 9, 10⟩)
        [(⟨60, some 0⟩, ⟨10, 11, 9, 10⟩), (⟨120, some 0⟩, ⟨0, 1, 0, 1⟩)]
        ⟨1000, [], [], none, ⟨none, none, none⟩, false⟩ =
        ⟨1000, [], [],
         some ⟨"EURUSD", Side.long, volumeOf concreteCfg 1000 0,
           entryFill concreteCfg Side.long 0,
           slPriceOf concreteCfg Side.long (entryFill concreteCfg Side.long 0),
           tpPriceOf concreteCfg Side.long (entryFill concreteCfg Side.long 0),
           ⟨120, some 0⟩⟩,
         (evaluate_bar concreteCfg ⟨60, some 0⟩ ⟨10, 11, 9, 10⟩
           ⟨some 10, some 9, some 0⟩).2, true⟩ := by
      rw [runSymbolAux_pair, concrete_step1, runSymbolAux_pair, hstep2,
        runSymbolAux_nil]
    rw [engineRun_eq, runAllSymbols_pair, runAllSymbols_nil,
      runSymbol_run _ _ _ _ _ (by norm_num)]
    simp only [haux]
  · intro cfg data e0 h
    rw [engineRun_eq, runAllSymbols_flag cfg data _ h]

/-- C10 witness: a run whose bars all have non-zero opens never reaches the
zero-denominator sizing division. -/
theorem c10_witness :
    (engineRun concreteCfg
       [("NZ", [(⟨0, some 0⟩, ⟨1, 1, 1, 1⟩), (⟨60, some 0⟩, ⟨1, 1, 1, 1⟩)])]
       7).sizing_zero_div = false :=
  c10_sizing_division.2 concreteCfg
    [("NZ", [(⟨0, some 0⟩, ⟨1, 1, 1, 1⟩), (⟨60, some 0⟩, ⟨1, 1, 1, 1⟩)])] 7
    (by
      simp
      rintro a b (⟨_, rfl⟩ | ⟨_, rfl⟩) <;> norm_num)

end FxBreakout
